import Mathlib

/-!
Verification of the autogator alignment-scan core (autogator/dataScanner.py).

The scanner drives a motorized XY stage and an oscilloscope detector.  The
embedding below translates DataScanner.basic_scan and DataScanner.auto_scan
into pure Lean functions over an explicit machine state.  Stage positions are
rationals (the spec's real-valued stage-native coordinates).  The detector is
an arbitrary stream of readings, indexed by the number of measure calls made
so far.  Every driver call is recorded, in order, in a command trace so that
theorems can speak about the sequence of issued commands.

The stage driver itself (the motion object with get_motor_position,
go_to_stage_coordinates, set_jog_step_linear, move_step) is not part of the
sources; its call/return behaviour is modelled from the spec, as marked on
each of those definitions.
-/

attribute [local semireducible] Rat.add Rat.mul Rat.sub Rat.inv

set_option maxRecDepth 4000

namespace Autogator

/-- The two linear stage axes used by the scan (motion.x_mot / motion.y_mot). -/
inductive Axis
  | x
  | y
deriving DecidableEq, Repr

/-- Direction argument of the relative step command. -/
inductive Dir
  | forward
  | backward
deriving DecidableEq, Repr

/-- One recorded driver call.  goTo is the absolute move
go_to_stage_coordinates, sleep is time.sleep, setJog is set_jog_step_linear,
step is move_step, and measure is oscope.measure. -/
inductive Cmd
  | goTo (x y : ℚ)
  | sleep (t : ℚ)
  | setJog (s : ℚ)
  | step (a : Axis) (d : Dir)
  | measure
deriving DecidableEq, Repr

/-- Machine state threaded through the scan: stage coordinates, the
configured jog increment, the number of detector reads made so far, the
basic_scan locals max_data and max_data_loc, and the trace of issued
commands.  max_data_loc is Python's max_data_loc variable: none models the
initial integer sentinel 0 (not subscriptable), some models the 2-element
list assigned on an update. -/
structure ScanState where
  posx : ℚ
  posy : ℚ
  jog : ℚ
  nReads : ℕ
  max_data : ℚ
  max_data_loc : Option (ℚ × ℚ)
  trace : List Cmd
deriving DecidableEq, Repr

/-- A convenient concrete start state: stage at the origin, nothing read. -/
def initState : ScanState :=
  { posx := 0, posy := 0, jog := 0, nReads := 0
    max_data := 0, max_data_loc := none, trace := [] }

/-- Floor of a rational, computed from its normalized numerator and
denominator by flooring integer division. -/
def ratFloor (q : ℚ) : ℤ :=
  Int.fdiv q.num (q.den : ℤ)

/-- Python's builtin round on a rational: nearest integer, ties going to the
even integer (banker's rounding), as used for edge_Num = round(sweep_distance
/ step_size). -/
def pyRound (q : ℚ) : ℤ :=
  let f := ratFloor q
  if q - (f : ℚ) < 1 / 2 then f
  else if (1 : ℚ) / 2 < q - (f : ℚ) then f + 1
  else if 2 ∣ f then f else f + 1

/-- edge_Num as the code computes it, before the nonnegativity imposed by
np.zeros: round(sweep_distance / step_size) as an integer. -/
def gridEdgeZ (sweep_distance step_size : ℚ) : ℤ :=
  pyRound (sweep_distance / step_size)

/-- The grid edge count actually used for the loop bounds (np.zeros with a
nonnegative dimension). -/
def gridEdge (sweep_distance step_size : ℚ) : ℕ :=
  (gridEdgeZ sweep_distance step_size).toNat

/-- Modelled from the spec: the stage driver's position query
(motion.get_motor_position, not part of these sources) returns the current
coordinate of the requested axis; it is read from the live state, never
cached. -/
def get_motor_position (a : Axis) (st : ScanState) : ℚ :=
  match a with
  | Axis.x => st.posx
  | Axis.y => st.posy

/-- Modelled from the spec: the stage driver's blocking absolute move
(motion.go_to_stage_coordinates, not part of these sources) sets both stage
coordinates to the requested values. -/
def go_to_stage_coordinates (x y : ℚ) (st : ScanState) : ScanState :=
  { st with posx := x, posy := y, trace := st.trace ++ [Cmd.goTo x y] }

/-- Modelled from the spec: motion.set_jog_step_linear (not part of these
sources) configures the increment later relative steps advance by. -/
def set_jog_step_linear (s : ℚ) (st : ScanState) : ScanState :=
  { st with jog := s, trace := st.trace ++ [Cmd.setJog s] }

/-- Modelled from the spec: the relative step command motion.move_step (not
part of these sources) advances the given axis by the currently configured
jog increment, forward adding it and backward subtracting it. -/
def move_step (a : Axis) (d : Dir) (st : ScanState) : ScanState :=
  let delta : ℚ := match d with
    | Dir.forward => st.jog
    | Dir.backward => -st.jog
  match a with
  | Axis.x => { st with posx := st.posx + delta, trace := st.trace ++ [Cmd.step a d] }
  | Axis.y => { st with posy := st.posy + delta, trace := st.trace ++ [Cmd.step a d] }

/-- time.sleep: no state change beyond recording the pause in the trace. -/
def sleepC (t : ℚ) (st : ScanState) : ScanState :=
  { st with trace := st.trace ++ [Cmd.sleep t] }

/-- The detector read oscope.measure: returns the next value of the reading
stream and advances the read counter. -/
def oscope_measure (readings : ℕ → ℚ) (st : ScanState) : ℚ × ScanState :=
  (readings st.nReads,
   { st with nReads := st.nReads + 1, trace := st.trace ++ [Cmd.measure] })

/-- One iteration of basic_scan's inner column loop: take a reading, update
max_data / max_data_loc when the reading is strictly greater (recording the
stage position queried right after the measurement), then take one jog step
along the y axis in the serpentine direction and sleep. -/
def scanCell (readings : ℕ → ℚ) (moving_down : Bool) (sleep_time : ℚ)
    (st : ScanState) : ScanState :=
  let m := oscope_measure readings st
  let d := m.1
  let st1 := m.2
  let st2 :=
    if st1.max_data < d then
      { st1 with
          max_data := d
          max_data_loc :=
            some (get_motor_position Axis.x st1, get_motor_position Axis.y st1) }
    else st1
  let st3 := move_step Axis.y (if moving_down then Dir.backward else Dir.forward) st2
  sleepC sleep_time st3

/-- j iterations of the inner column loop (all with the same serpentine
direction, as in the source, where moving_down only toggles between rows). -/
def cellsFrom (readings : ℕ → ℚ) (moving_down : Bool) (sleep_time : ℚ) :
    ℕ → ScanState → ScanState
  | 0, st => st
  | j + 1, st => scanCell readings moving_down sleep_time
      (cellsFrom readings moving_down sleep_time j st)

/-- End of one row: the single forward jog step on the x axis followed by the
sleep (the moving_down toggle itself issues no command). -/
def rowEnd (sleep_time : ℚ) (st : ScanState) : ScanState :=
  sleepC sleep_time (move_step Axis.x Dir.forward st)

/-- The outer row loop of basic_scan: each row runs the full inner column
loop with the current serpentine direction, then the direction toggles and
the stage steps once along the x axis. -/
def scanRows (readings : ℕ → ℚ) (cols : ℕ) (sleep_time : ℚ) :
    ℕ → Bool → ScanState → ScanState
  | 0, _, st => st
  | r + 1, moving_down, st =>
      scanRows readings cols sleep_time r (!moving_down)
        (rowEnd sleep_time (cellsFrom readings moving_down sleep_time cols st))

/-- The exceptions basic_scan can actually raise: ZeroDivisionError from
sweep_distance / step_size with step_size = 0, ValueError from np.zeros with
a negative edge_Num, and TypeError from subscripting the integer sentinel
max_data_loc = 0 in the final go_to_stage_coordinates call. -/
inductive ScanErr
  | zeroDivisionError
  | valueError
  | typeError
deriving DecidableEq, Repr

/-- State of basic_scan just before the raster: locals initialized, scan
origin computed as the queried position minus half the sweep distance on
each axis, absolute move there, settle sleep, and jog step configured. -/
def preScanState (sweep_distance step_size sleep_time : ℚ)
    (st0 : ScanState) : ScanState :=
  let st := { st0 with max_data := 0, max_data_loc := none }
  let x_start_place := get_motor_position Axis.x st - sweep_distance / 2
  let y_start_place := get_motor_position Axis.y st - sweep_distance / 2
  set_jog_step_linear step_size
    (sleepC sleep_time (go_to_stage_coordinates x_start_place y_start_place st))

/-- DataScanner.basic_scan with plot=False, over an arbitrary reading
stream: compute the origin, move and settle, set the jog step, raster
edge_Num x edge_Num cells serpentine-wise, then move absolutely to the
recorded best location (raising TypeError if no reading ever exceeded the
zero sentinel, so max_data_loc is still the integer 0).  An exception
carries the machine state at the raise point. -/
def basic_scan (readings : ℕ → ℚ) (sweep_distance step_size sleep_time : ℚ)
    (st0 : ScanState) : Except (ScanErr × ScanState) ScanState :=
  let st := preScanState sweep_distance step_size sleep_time st0
  if step_size = 0 then Except.error (ScanErr.zeroDivisionError, st)
  else if gridEdgeZ sweep_distance step_size < 0 then
    Except.error (ScanErr.valueError, st)
  else
    let n := gridEdge sweep_distance step_size
    let stS := scanRows readings n sleep_time n false st
    match stS.max_data_loc with
    | none => Except.error (ScanErr.typeError, stS)
    | some p =>
        Except.ok (sleepC sleep_time (go_to_stage_coordinates p.1 p.2 stS))

/-- The machine state at the end of the raster loop of basic_scan, before
the final absolute move. -/
def rasterState (readings : ℕ → ℚ) (sweep_distance step_size sleep_time : ℚ)
    (st0 : ScanState) : ScanState :=
  scanRows readings (gridEdge sweep_distance step_size) sleep_time
    (gridEdge sweep_distance step_size) false
    (preScanState sweep_distance step_size sleep_time st0)

/-- The value basic_scan returns to its caller on normal completion: the
function body contains no return statement, so Python returns None, carrying
no (position, value) payload. -/
def basic_scan_return (readings : ℕ → ℚ)
    (sweep_distance step_size sleep_time : ℚ) (st0 : ScanState) :
    Option ((ℚ × ℚ) × ℚ) :=
  match basic_scan readings sweep_distance step_size sleep_time st0 with
  | Except.ok _ => none
  | Except.error _ => none

/-- The oscope.measure call made by each pair of print statements between
passes of auto_scan (the position queries issue no commands). -/
def printStep (readings : ℕ → ℚ) (st : ScanState) : ScanState :=
  (oscope_measure readings st).2

/-- DataScanner.auto_scan: three basic_scan passes with the fixed
coarse-to-fine parameters, each followed by the printing measure call; an
exception in any pass propagates. -/
def auto_scan (readings : ℕ → ℚ) (st0 : ScanState) :
    Except (ScanErr × ScanState) ScanState :=
  Except.bind (basic_scan readings (25 / 1000) (5 / 1000) (1 / 2) st0)
    (fun st1 =>
      Except.bind
        (basic_scan readings (1 / 100) (1 / 1000) (1 / 2) (printStep readings st1))
        (fun st2 =>
          Except.map (fun st3 => printStep readings st3)
            (basic_scan readings (1 / 1000) (5 / 10000) (1 / 2)
              (printStep readings st2))))

/-- The machine state carried by a scan outcome, after normal completion or
at the raise point. -/
def stateOf : Except (ScanErr × ScanState) ScanState → ScanState
  | Except.ok st => st
  | Except.error (_, st) => st

/-- Whether a scan outcome is a normal completion. -/
def isOkB : Except (ScanErr × ScanState) ScanState → Bool
  | Except.ok _ => true
  | Except.error _ => false

/-- The exception kind of a scan outcome, if any. -/
def errKind : Except (ScanErr × ScanState) ScanState → Option ScanErr
  | Except.ok _ => none
  | Except.error (e, _) => some e

/-- The commands a run added beyond those already in the start state. -/
def traceDelta (st0 st1 : ScanState) : List Cmd :=
  st1.trace.drop st0.trace.length

/-- Number of detector reads in a command list. -/
def countMeasures (l : List Cmd) : ℕ :=
  l.countP (fun c => match c with | Cmd.measure => true | _ => false)

/-- Number of relative step commands on a given axis in a command list. -/
def countSteps (a : Axis) (l : List Cmd) : ℕ :=
  l.countP (fun c => match c with | Cmd.step b _ => decide (a = b) | _ => false)

/-- Whether a command is a relative step command (on either axis). -/
def isStepCmd : Cmd → Bool
  | Cmd.step _ _ => true
  | _ => false

/-- The commands issued strictly before the final absolute move: everything
when the pass raised, and everything except the final go_to and its sleep
when it completed. -/
def preMoveTrace : Except (ScanErr × ScanState) ScanState → List Cmd
  | Except.error (_, st) => st.trace
  | Except.ok st => st.trace.take (st.trace.length - 2)

/-- The direction of the moving_down flag: backward when set. -/
def dirOfB (moving_down : Bool) : Dir :=
  if moving_down then Dir.backward else Dir.forward

/-- The three commands issued by one inner-loop iteration. -/
def cellCmds (moving_down : Bool) (sleep_time : ℚ) : List Cmd :=
  [Cmd.measure, Cmd.step Axis.y (dirOfB moving_down), Cmd.sleep sleep_time]

/-- The commands issued by one full row given the moving_down flag at its
start: cols inner iterations then the x step and its sleep. -/
def rowTraceB (sleep_time : ℚ) (cols : ℕ) (moving_down : Bool) : List Cmd :=
  (List.replicate cols (cellCmds moving_down sleep_time)).flatten
    ++ [Cmd.step Axis.x Dir.forward, Cmd.sleep sleep_time]

/-- The commands issued by r rows starting from a given moving_down flag,
toggling between rows. -/
def rowsTraceB (sleep_time : ℚ) (cols : ℕ) : ℕ → Bool → List Cmd
  | 0, _ => []
  | r + 1, moving_down =>
      rowTraceB sleep_time cols moving_down
        ++ rowsTraceB sleep_time cols r (!moving_down)

/-- The serpentine direction of row i counted from 0: forward on even rows,
backward on odd rows. -/
def serpDir (i : ℕ) : Dir :=
  if i % 2 = 0 then Dir.forward else Dir.backward

/-- The commands issued by row i (counted from 0) of a pass: every column
step of the row in the single direction serpDir i, one step after each of
the cols measurements, then the forward x step. -/
def rowTraceI (sleep_time : ℚ) (cols : ℕ) (i : ℕ) : List Cmd :=
  (List.replicate cols
      [Cmd.measure, Cmd.step Axis.y (serpDir i), Cmd.sleep sleep_time]).flatten
    ++ [Cmd.step Axis.x Dir.forward, Cmd.sleep sleep_time]

/-- The moving_down flag at the start of row i: set exactly on odd rows. -/
def rowBool (i : ℕ) : Bool :=
  decide (i % 2 = 1)

/-- The state after i complete rows of a pass that started at st0 (each row
being cols cells plus the row-end x step), following the serpentine
direction schedule. -/
def passRows (readings : ℕ → ℚ) (sleep_time : ℚ) (cols : ℕ)
    (st0 : ScanState) : ℕ → ScanState
  | 0 => st0
  | i + 1 =>
      rowEnd sleep_time
        (cellsFrom readings (rowBool i) sleep_time cols
          (passRows readings sleep_time cols st0 i))

/-- The state at an arbitrary point of a pass: after i complete rows and j
further cells of row i. -/
def passState (readings : ℕ → ℚ) (sleep_time : ℚ) (cols : ℕ)
    (st0 : ScanState) (i j : ℕ) : ScanState :=
  cellsFrom readings (rowBool i) sleep_time j
    (passRows readings sleep_time cols st0 i)

/-- The first k values of the reading stream, in order. -/
def readsUpTo (readings : ℕ → ℚ) (k : ℕ) : List ℚ :=
  (List.range k).map readings

/-- The running maximum the scan tracks: the fold of max over a list of
readings, seeded with the zero sentinel. -/
def runningMax (l : List ℚ) : ℚ :=
  l.foldl max 0

/-! Generic list facts used below. -/

theorem take_len_append {α : Type} (A B : List α) : (A ++ B).take A.length = A := by
  induction A with
  | nil => simp
  | cons a A ih => simp [ih]

theorem drop_len_append {α : Type} (A B : List α) : (A ++ B).drop A.length = B := by
  induction A with
  | nil => simp
  | cons a A ih => simp [ih]

theorem countP_flatten_replicate {α : Type} (p : α → Bool) (c : List α) :
    ∀ n, ((List.replicate n c).flatten).countP p = n * c.countP p := by
  intro n
  induction n with
  | zero => simp
  | succ n ih =>
      simp [List.replicate_succ, List.countP_append, ih, Nat.succ_mul]
      omega

theorem range_snoc (s : ℕ) : ∀ n, List.range' s (n + 1) = List.range' s n ++ [s + n] := by
  intro n
  induction n generalizing s with
  | zero => simp
  | succ n ih =>
      have h1 : List.range' s (n + 2) = s :: List.range' (s + 1) (n + 1) := rfl
      have h2 : List.range' s (n + 1) = s :: List.range' (s + 1) n := rfl
      rw [h1, ih (s + 1), h2]
      simp [Nat.add_assoc, Nat.add_comm 1 n]

theorem ite_lt_max (a b : ℚ) : (if a < b then b else a) = max a b := by
  rcases lt_or_ge a b with h | h
  · simp [h, max_eq_right h.le]
  · simp [not_lt.mpr h, max_eq_left h]

/-! Characterizations of the loop-body building blocks. -/

theorem scanCell_eq (readings : ℕ → ℚ) (b : Bool) (t : ℚ) (st : ScanState) :
    scanCell readings b t st =
      { st with
          posy := st.posy + (if b then -st.jog else st.jog)
          nReads := st.nReads + 1
          max_data := max st.max_data (readings st.nReads)
          max_data_loc :=
            if st.max_data < readings st.nReads then some (st.posx, st.posy)
            else st.max_data_loc
          trace := st.trace ++ cellCmds b t } := by
  rw [← ite_lt_max]
  cases b <;>
    · simp only [scanCell, oscope_measure, move_step, sleepC, get_motor_position,
        cellCmds, dirOfB]
      split_ifs <;> simp [List.append_assoc]

theorem rowEnd_eq (t : ℚ) (st : ScanState) :
    rowEnd t st =
      { st with
          posx := st.posx + st.jog
          trace := st.trace ++ [Cmd.step Axis.x Dir.forward, Cmd.sleep t] } := by
  simp [rowEnd, move_step, sleepC, List.append_assoc]

theorem cellsFrom_nReads (readings : ℕ → ℚ) (b : Bool) (t : ℚ) :
    ∀ j st, (cellsFrom readings b t j st).nReads = st.nReads + j := by
  intro j
  induction j with
  | zero => intro st; rfl
  | succ j ih =>
      intro st
      simp [cellsFrom, scanCell_eq, ih, Nat.add_assoc]

theorem cellsFrom_jog (readings : ℕ → ℚ) (b : Bool) (t : ℚ) :
    ∀ j st, (cellsFrom readings b t j st).jog = st.jog := by
  intro j
  induction j with
  | zero => intro st; rfl
  | succ j ih => intro st; simp [cellsFrom, scanCell_eq, ih]

theorem cellsFrom_trace (readings : ℕ → ℚ) (b : Bool) (t : ℚ) :
    ∀ j st, (cellsFrom readings b t j st).trace
      = st.trace ++ (List.replicate j (cellCmds b t)).flatten := by
  intro j
  induction j with
  | zero => intro st; simp [cellsFrom]
  | succ j ih =>
      intro st
      rw [List.replicate_succ']
      simp [cellsFrom, scanCell_eq, ih, List.append_assoc]

theorem cellsFrom_max_data (readings : ℕ → ℚ) (b : Bool) (t : ℚ) :
    ∀ j st, (cellsFrom readings b t j st).max_data
      = ((List.range' st.nReads j).map readings).foldl max st.max_data := by
  intro j
  induction j with
  | zero => intro st; rfl
  | succ j ih =>
      intro st
      rw [range_snoc]
      simp [cellsFrom, scanCell_eq, ih, cellsFrom_nReads, List.foldl_append]

theorem cellsFrom_loc_isSome (readings : ℕ → ℚ) (b : Bool) (t : ℚ) :
    ∀ j st, st.max_data_loc.isSome = true →
      ((cellsFrom readings b t j st).max_data_loc).isSome = true := by
  intro j
  induction j with
  | zero => intro st h; exact h
  | succ j ih =>
      intro st h
      simp only [cellsFrom, scanCell_eq]
      split_ifs <;> simp [ih st h]

theorem cellsFrom_loc_of_pos (readings : ℕ → ℚ) (b : Bool) (t : ℚ)
    (hpos : ∀ k, 0 < readings k) :
    ∀ j st, st.max_data = 0 → 1 ≤ j →
      ((cellsFrom readings b t j st).max_data_loc).isSome = true := by
  intro j
  induction j with
  | zero => intro st _ h; omega
  | succ j ih =>
      intro st hmd _
      rcases Nat.eq_zero_or_pos j with hj | hj
      · subst hj
        simp only [cellsFrom, scanCell_eq]
        rw [if_pos]
        · simp
        · rw [hmd]; exact hpos st.nReads
      · simp only [cellsFrom, scanCell_eq]
        split_ifs <;> simp [cellsFrom_loc_isSome, ih st hmd hj]

theorem scanRows_nReads (readings : ℕ → ℚ) (cols : ℕ) (t : ℚ) :
    ∀ r b st, (scanRows readings cols t r b st).nReads = st.nReads + r * cols := by
  intro r
  induction r with
  | zero => intro b st; simp [scanRows]
  | succ r ih =>
      intro b st
      simp [scanRows, ih, rowEnd_eq, cellsFrom_nReads, Nat.succ_mul]
      omega

theorem scanRows_jog (readings : ℕ → ℚ) (cols : ℕ) (t : ℚ) :
    ∀ r b st, (scanRows readings cols t r b st).jog = st.jog := by
  intro r
  induction r with
  | zero => intro b st; rfl
  | succ r ih => intro b st; simp [scanRows, ih, rowEnd_eq, cellsFrom_jog]

theorem scanRows_trace (readings : ℕ → ℚ) (cols : ℕ) (t : ℚ) :
    ∀ r b st, (scanRows readings cols t r b st).trace
      = st.trace ++ rowsTraceB t cols r b := by
  intro r
  induction r with
  | zero => intro b st; simp [scanRows, rowsTraceB]
  | succ r ih =>
      intro b st
      simp [scanRows, ih, rowEnd_eq, cellsFrom_trace, rowsTraceB, rowTraceB,
        List.append_assoc]

theorem scanRows_max_data (readings : ℕ → ℚ) (cols : ℕ) (t : ℚ) :
    ∀ r b st, (scanRows readings cols t r b st).max_data
      = ((List.range' st.nReads (r * cols)).map readings).foldl max st.max_data := by
  intro r
  induction r with
  | zero => intro b st; simp [scanRows]
  | succ r ih =>
      intro b st
      rw [scanRows, ih]
      simp only [rowEnd_eq, cellsFrom_max_data, cellsFrom_nReads]
      rw [← List.foldl_append, ← List.map_append, List.range'_append_1]
      congr 2
      rw [Nat.succ_mul]

theorem scanRows_loc_isSome (readings : ℕ → ℚ) (cols : ℕ) (t : ℚ) :
    ∀ r b st, st.max_data_loc.isSome = true →
      ((scanRows readings cols t r b st).max_data_loc).isSome = true := by
  intro r
  induction r with
  | zero => intro b st h; exact h
  | succ r ih =>
      intro b st h
      simp only [scanRows]
      apply ih
      simp [rowEnd_eq, cellsFrom_loc_isSome, h]

theorem scanRows_loc_of_pos (readings : ℕ → ℚ) (cols : ℕ) (t : ℚ)
    (hpos : ∀ k, 0 < readings k) (hcols : 1 ≤ cols) :
    ∀ r b st, st.max_data = 0 → 1 ≤ r →
      ((scanRows readings cols t r b st).max_data_loc).isSome = true := by
  intro r
  induction r with
  | zero => intro b st _ h; omega
  | succ r ih =>
      intro b st hmd _
      simp only [scanRows]
      apply scanRows_loc_isSome
      simp [rowEnd_eq, cellsFrom_loc_of_pos readings b t hpos cols st hmd hcols]

/-! The serpentine direction schedule. -/

theorem rowBool_zero : rowBool 0 = false := by
  simp [rowBool]

theorem rowBool_succ (i : ℕ) : rowBool (i + 1) = !rowBool i := by
  by_cases h : i % 2 = 1
  · have h2 : ¬(i + 1) % 2 = 1 := by omega
    simp [rowBool, h, h2]
  · have h2 : (i + 1) % 2 = 1 := by omega
    simp [rowBool, h, h2]

theorem dirOfB_rowBool (i : ℕ) : dirOfB (rowBool i) = serpDir i := by
  by_cases h : i % 2 = 0
  · have h2 : ¬i % 2 = 1 := by omega
    simp [dirOfB, rowBool, serpDir, h, h2]
  · have h2 : i % 2 = 1 := by omega
    simp [dirOfB, rowBool, serpDir, h, h2]

theorem rowTraceB_rowBool (t : ℚ) (cols i : ℕ) :
    rowTraceB t cols (rowBool i) = rowTraceI t cols i := by
  simp [rowTraceB, rowTraceI, cellCmds, dirOfB_rowBool]

theorem rowsTraceB_indexed (t : ℚ) (cols : ℕ) :
    ∀ r i, rowsTraceB t cols r (rowBool i)
      = ((List.range' i r).map (rowTraceI t cols)).flatten := by
  intro r
  induction r with
  | zero => intro i; simp [rowsTraceB]
  | succ i_1 ih =>
      intro i
      rw [rowsTraceB, ← rowBool_succ, List.range'_succ]
      simp [rowTraceB_rowBool, ih (i + 1)]

/-! Bridging the raster loop to the pointwise pass-state function. -/

theorem scanRows_passRows (readings : ℕ → ℚ) (t : ℚ) (cols : ℕ) (st0 : ScanState) :
    ∀ r i, scanRows readings cols t r (rowBool i) (passRows readings t cols st0 i)
      = passRows readings t cols st0 (i + r) := by
  intro r
  induction r with
  | zero => intro i; rfl
  | succ r ih =>
      intro i
      rw [scanRows, ← rowBool_succ]
      have hstep : rowEnd t (cellsFrom readings (rowBool i) t cols
          (passRows readings t cols st0 i)) = passRows readings t cols st0 (i + 1) := rfl
      rw [hstep, ih (i + 1)]
      congr 1
      omega

theorem scanRows_eq_passState (readings : ℕ → ℚ) (t : ℚ) (cols : ℕ)
    (st0 : ScanState) (r : ℕ) :
    scanRows readings cols t r false st0 = passState readings t cols st0 r 0 := by
  have h := scanRows_passRows readings t cols st0 r 0
  rw [rowBool_zero] at h
  simpa [passRows, passState, cellsFrom] using h

theorem passState_succ_cell (readings : ℕ → ℚ) (t : ℚ) (cols : ℕ)
    (st0 : ScanState) (i j : ℕ) :
    passState readings t cols st0 i (j + 1)
      = scanCell readings (rowBool i) t (passState readings t cols st0 i j) := rfl

theorem passRows_nReads (readings : ℕ → ℚ) (t : ℚ) (cols : ℕ) (st0 : ScanState) :
    ∀ i, (passRows readings t cols st0 i).nReads = st0.nReads + i * cols := by
  intro i
  induction i with
  | zero => simp [passRows]
  | succ i ih =>
      simp [passRows, rowEnd_eq, cellsFrom_nReads, ih, Nat.succ_mul]
      omega

theorem passState_nReads (readings : ℕ → ℚ) (t : ℚ) (cols : ℕ) (st0 : ScanState)
    (i j : ℕ) :
    (passState readings t cols st0 i j).nReads = st0.nReads + (i * cols + j) := by
  rw [passState, cellsFrom_nReads, passRows_nReads, Nat.add_assoc]

theorem passRows_eq_scanRows (readings : ℕ → ℚ) (t : ℚ) (cols : ℕ)
    (st0 : ScanState) (i : ℕ) :
    passRows readings t cols st0 i = scanRows readings cols t i false st0 := by
  have h := scanRows_passRows readings t cols st0 i 0
  rw [rowBool_zero] at h
  simpa [passRows] using h.symm

theorem passState_max_data (readings : ℕ → ℚ) (t : ℚ) (cols : ℕ)
    (st0 : ScanState) (i j : ℕ) :
    (passState readings t cols st0 i j).max_data
      = ((List.range' st0.nReads (i * cols + j)).map readings).foldl max st0.max_data := by
  rw [passState, cellsFrom_max_data, passRows_eq_scanRows, scanRows_max_data,
    scanRows_nReads]
  rw [← List.foldl_append, ← List.map_append, List.range'_append_1]
  congr 2
  rw [Nat.add_comm]

/-! Facts about the running maximum. -/

theorem le_foldl_max (l : List ℚ) : ∀ a : ℚ, a ≤ l.foldl max a := by
  induction l with
  | nil => intro a; exact le_refl a
  | cons b l ih =>
      intro a
      calc a ≤ max a b := le_max_left a b
        _ ≤ (b :: l).foldl max a := ih (max a b)

theorem foldl_max_cases (l : List ℚ) : ∀ a : ℚ, l.foldl max a = a ∨ l.foldl max a ∈ l := by
  induction l with
  | nil => intro a; exact Or.inl rfl
  | cons b l ih =>
      intro a
      rcases ih (max a b) with h | h
      · rcases max_choice a b with hm | hm
        · exact Or.inl (by rw [List.foldl_cons, h, hm])
        · exact Or.inr (by rw [List.foldl_cons, h, hm]; exact List.mem_cons_self b l)
      · exact Or.inr (List.mem_cons_of_mem b h)

theorem mem_le_foldl_max (l : List ℚ) : ∀ (a x : ℚ), x ∈ l → x ≤ l.foldl max a := by
  induction l with
  | nil => intro a x h; cases h
  | cons b l ih =>
      intro a x h
      rcases List.mem_cons.mp h with h | h
      · subst h
        calc x ≤ max a x := le_max_right a x
          _ ≤ (x :: l).foldl max a := by rw [List.foldl_cons]; exact le_foldl_max l _
      · rw [List.foldl_cons]
        exact ih (max a b) x h

theorem readsUpTo_split (readings : ℕ → ℚ) {k k2 : ℕ} (h : k ≤ k2) :
    readsUpTo readings k2
      = readsUpTo readings k ++ (List.range' k (k2 - k)).map readings := by
  rw [readsUpTo, readsUpTo, ← List.map_append]
  congr 1
  rw [List.range_eq_range', List.range_eq_range']
  have bridge := List.range'_append_1 0 k (k2 - k)
  rw [Nat.zero_add] at bridge
  rw [bridge]
  congr 1
  omega

theorem runningMax_mono (readings : ℕ → ℚ) {k k2 : ℕ} (h : k ≤ k2) :
    runningMax (readsUpTo readings k) ≤ runningMax (readsUpTo readings k2) := by
  rw [runningMax, runningMax, readsUpTo_split readings h, List.foldl_append]
  exact le_foldl_max _ _

/-! Command counts of the serpentine body. -/

theorem countMeasures_append (l1 l2 : List Cmd) :
    countMeasures (l1 ++ l2) = countMeasures l1 + countMeasures l2 :=
  List.countP_append _ _ _

theorem countSteps_append (a : Axis) (l1 l2 : List Cmd) :
    countSteps a (l1 ++ l2) = countSteps a l1 + countSteps a l2 :=
  List.countP_append _ _ _

theorem countMeasures_flatten_replicate (n : ℕ) (c : List Cmd) :
    countMeasures (List.replicate n c).flatten = n * countMeasures c := by
  simp only [countMeasures]
  rw [countP_flatten_replicate]

theorem countSteps_flatten_replicate (a : Axis) (n : ℕ) (c : List Cmd) :
    countSteps a (List.replicate n c).flatten = n * countSteps a c := by
  simp only [countSteps]
  rw [countP_flatten_replicate]

theorem countMeasures_cellCmds (b : Bool) (t : ℚ) :
    countMeasures (cellCmds b t) = 1 := by
  cases b <;> rfl

theorem countStepsY_cellCmds (b : Bool) (t : ℚ) :
    countSteps Axis.y (cellCmds b t) = 1 := by
  cases b <;> rfl

theorem countStepsX_cellCmds (b : Bool) (t : ℚ) :
    countSteps Axis.x (cellCmds b t) = 0 := by
  cases b <;> rfl

theorem countMeasures_rowTraceB (t : ℚ) (cols : ℕ) (b : Bool) :
    countMeasures (rowTraceB t cols b) = cols := by
  rw [rowTraceB, countMeasures_append, countMeasures_flatten_replicate,
    countMeasures_cellCmds]
  have htail : countMeasures [Cmd.step Axis.x Dir.forward, Cmd.sleep t] = 0 := rfl
  rw [htail]
  omega

theorem countStepsY_rowTraceB (t : ℚ) (cols : ℕ) (b : Bool) :
    countSteps Axis.y (rowTraceB t cols b) = cols := by
  rw [rowTraceB, countSteps_append, countSteps_flatten_replicate,
    countStepsY_cellCmds]
  have htail : countSteps Axis.y [Cmd.step Axis.x Dir.forward, Cmd.sleep t] = 0 := rfl
  rw [htail]
  omega

theorem countStepsX_rowTraceB (t : ℚ) (cols : ℕ) (b : Bool) :
    countSteps Axis.x (rowTraceB t cols b) = 1 := by
  rw [rowTraceB, countSteps_append, countSteps_flatten_replicate,
    countStepsX_cellCmds]
  have htail : countSteps Axis.x [Cmd.step Axis.x Dir.forward, Cmd.sleep t] = 1 := rfl
  rw [htail]
  omega

theorem countMeasures_rowsTraceB (t : ℚ) (cols : ℕ) :
    ∀ r b, countMeasures (rowsTraceB t cols r b) = r * cols := by
  intro r
  induction r with
  | zero => intro b; simp [rowsTraceB, countMeasures]
  | succ r ih =>
      intro b
      rw [rowsTraceB, countMeasures_append, countMeasures_rowTraceB, ih (!b),
        Nat.succ_mul, Nat.add_comm]

theorem countStepsY_rowsTraceB (t : ℚ) (cols : ℕ) :
    ∀ r b, countSteps Axis.y (rowsTraceB t cols r b) = r * cols := by
  intro r
  induction r with
  | zero => intro b; simp [rowsTraceB, countSteps]
  | succ r ih =>
      intro b
      rw [rowsTraceB, countSteps_append, countStepsY_rowTraceB, ih (!b),
        Nat.succ_mul, Nat.add_comm]

theorem countStepsX_rowsTraceB (t : ℚ) (cols : ℕ) :
    ∀ r b, countSteps Axis.x (rowsTraceB t cols r b) = r := by
  intro r
  induction r with
  | zero => intro b; simp [rowsTraceB, countSteps]
  | succ r ih =>
      intro b
      rw [rowsTraceB, countSteps_append, countStepsX_rowTraceB, ih (!b),
        Nat.add_comm]

/-! Structure of a whole basic_scan call. -/

theorem preScanState_eq (sweep step t : ℚ) (st0 : ScanState) :
    preScanState sweep step t st0 =
      { st0 with
          posx := st0.posx - sweep / 2
          posy := st0.posy - sweep / 2
          jog := step
          max_data := 0
          max_data_loc := none
          trace := st0.trace ++
            [Cmd.goTo (st0.posx - sweep / 2) (st0.posy - sweep / 2),
             Cmd.sleep t, Cmd.setJog step] } := by
  simp [preScanState, go_to_stage_coordinates, sleepC, set_jog_step_linear,
    get_motor_position, List.append_assoc]

theorem basic_scan_eq (readings : ℕ → ℚ) (sweep step t : ℚ) (st0 : ScanState) :
    basic_scan readings sweep step t st0 =
      (if step = 0 then
        Except.error (ScanErr.zeroDivisionError, preScanState sweep step t st0)
      else if gridEdgeZ sweep step < 0 then
        Except.error (ScanErr.valueError, preScanState sweep step t st0)
      else
        match (rasterState readings sweep step t st0).max_data_loc with
        | none => Except.error (ScanErr.typeError, rasterState readings sweep step t st0)
        | some p =>
            Except.ok (sleepC t (go_to_stage_coordinates p.1 p.2
              (rasterState readings sweep step t st0)))) := rfl

theorem rasterState_trace (readings : ℕ → ℚ) (sweep step t : ℚ) (st0 : ScanState) :
    (rasterState readings sweep step t st0).trace
      = st0.trace ++
          [Cmd.goTo (st0.posx - sweep / 2) (st0.posy - sweep / 2),
           Cmd.sleep t, Cmd.setJog step] ++
          rowsTraceB t (gridEdge sweep step) (gridEdge sweep step) false := by
  rw [rasterState, scanRows_trace, preScanState_eq]

theorem basic_scan_ok_cases (readings : ℕ → ℚ) (sweep step t : ℚ) (st0 : ScanState)
    (h : isOkB (basic_scan readings sweep step t st0) = true) :
    ∃ p : ℚ × ℚ,
      (rasterState readings sweep step t st0).max_data_loc = some p ∧
      basic_scan readings sweep step t st0
        = Except.ok (sleepC t (go_to_stage_coordinates p.1 p.2
            (rasterState readings sweep step t st0))) := by
  rw [basic_scan_eq] at h ⊢
  by_cases h0 : step = 0
  · rw [if_pos h0] at h
    simp [isOkB] at h
  · rw [if_neg h0] at h ⊢
    by_cases h1 : gridEdgeZ sweep step < 0
    · rw [if_pos h1] at h
      simp [isOkB] at h
    · rw [if_neg h1] at h ⊢
      rcases hm : (rasterState readings sweep step t st0).max_data_loc with _ | p
      · rw [hm] at h
        simp [isOkB] at h
      · exact ⟨p, rfl, rfl⟩

theorem basic_scan_ok_parked (readings : ℕ → ℚ) (sweep step t : ℚ) (st0 : ScanState)
    (h : isOkB (basic_scan readings sweep step t st0) = true) :
    (stateOf (basic_scan readings sweep step t st0)).max_data_loc
      = some ((stateOf (basic_scan readings sweep step t st0)).posx,
              (stateOf (basic_scan readings sweep step t st0)).posy) ∧
    ∃ pre, (stateOf (basic_scan readings sweep step t st0)).trace
      = pre ++ [Cmd.goTo (stateOf (basic_scan readings sweep step t st0)).posx
                  (stateOf (basic_scan readings sweep step t st0)).posy,
                Cmd.sleep t] := by
  rcases basic_scan_ok_cases readings sweep step t st0 h with ⟨p, hm, heq⟩
  rw [heq]
  simp only [stateOf, sleepC, go_to_stage_coordinates]
  refine ⟨by simp [hm], ?_⟩
  exact ⟨(rasterState readings sweep step t st0).trace, by simp⟩

theorem basic_scan_ok_of_pos (readings : ℕ → ℚ) (sweep step t : ℚ)
    (st0 : ScanState) (hpos : ∀ k, 0 < readings k) (hstep : step ≠ 0)
    (hn : 1 ≤ gridEdge sweep step) :
    isOkB (basic_scan readings sweep step t st0) = true := by
  simp only [gridEdge] at hn
  have hnn : ¬gridEdgeZ sweep step < 0 := by omega
  rw [basic_scan_eq, if_neg hstep, if_neg hnn]
  have hsome := scanRows_loc_of_pos readings (gridEdge sweep step) t hpos hn
    (gridEdge sweep step) false (preScanState sweep step t st0)
    (by rw [preScanState_eq]) hn
  rw [← rasterState] at hsome
  rcases hm : (rasterState readings sweep step t st0).max_data_loc with _ | p
  · rw [hm] at hsome
    cases hsome
  · rfl

theorem auto_scan_ok_of_pos (readings : ℕ → ℚ) (st0 : ScanState)
    (hpos : ∀ k, 0 < readings k) :
    isOkB (auto_scan readings st0) = true := by
  have h1 := basic_scan_ok_of_pos readings (25 / 1000) (5 / 1000) (1 / 2) st0
    hpos (by norm_num) (by decide)
  rcases hb1 : basic_scan readings (25 / 1000) (5 / 1000) (1 / 2) st0 with e | st1
  · rw [hb1] at h1; simp [isOkB] at h1
  · have h2 := basic_scan_ok_of_pos readings (1 / 100) (1 / 1000) (1 / 2)
      (printStep readings st1) hpos (by norm_num) (by decide)
    rcases hb2 : basic_scan readings (1 / 100) (1 / 1000) (1 / 2)
        (printStep readings st1) with e | st2
    · rw [hb2] at h2; simp [isOkB] at h2
    · have h3 := basic_scan_ok_of_pos readings (1 / 1000) (5 / 10000) (1 / 2)
        (printStep readings st2) hpos (by norm_num) (by decide)
      rcases hb3 : basic_scan readings (1 / 1000) (5 / 10000) (1 / 2)
          (printStep readings st2) with e | st3
      · rw [hb3] at h3; simp [isOkB] at h3
      · rw [auto_scan, hb1]
        simp only [Except.bind]
        rw [hb2]
        simp only [Except.bind]
        rw [hb3]
        simp only [Except.map]
        rfl

theorem gridEdge_of_step_zero (sweep : ℚ) : gridEdge sweep 0 = 0 := by
  have hp : pyRound 0 = 0 := by decide
  simp [gridEdge, gridEdgeZ, div_zero, hp]

theorem basic_scan_trace_cases (readings : ℕ → ℚ) (sweep step t : ℚ)
    (st0 : ScanState) :
    ∃ tail,
      (stateOf (basic_scan readings sweep step t st0)).trace
        = st0.trace ++
            ([Cmd.goTo (st0.posx - sweep / 2) (st0.posy - sweep / 2), Cmd.sleep t,
              Cmd.setJog step] ++
              rowsTraceB t (gridEdge sweep step) (gridEdge sweep step) false ++ tail) ∧
      (tail = [] ∨ ∃ q : ℚ × ℚ, tail = [Cmd.goTo q.1 q.2, Cmd.sleep t]) := by
  rw [basic_scan_eq]
  split_ifs with h0 h1
  · subst h0
    refine ⟨[], ?_, Or.inl rfl⟩
    simp [stateOf, preScanState_eq, gridEdge_of_step_zero, rowsTraceB]
  · have hg : gridEdge sweep step = 0 := Int.toNat_of_nonpos h1.le
    refine ⟨[], ?_, Or.inl rfl⟩
    simp [stateOf, preScanState_eq, hg, rowsTraceB]
  · rcases hm : (rasterState readings sweep step t st0).max_data_loc with _ | p
    · refine ⟨[], ?_, Or.inl rfl⟩
      simp [stateOf, rasterState_trace, List.append_assoc]
    · refine ⟨[Cmd.goTo p.1 p.2, Cmd.sleep t], ?_, Or.inr ⟨p, rfl⟩⟩
      simp [stateOf, sleepC, go_to_stage_coordinates, rasterState_trace,
        List.append_assoc]

theorem basic_scan_traceDelta (readings : ℕ → ℚ) (sweep step t : ℚ)
    (st0 : ScanState) :
    ∃ tail,
      traceDelta st0 (stateOf (basic_scan readings sweep step t st0))
        = [Cmd.goTo (st0.posx - sweep / 2) (st0.posy - sweep / 2), Cmd.sleep t,
           Cmd.setJog step] ++
            rowsTraceB t (gridEdge sweep step) (gridEdge sweep step) false ++ tail ∧
      (tail = [] ∨ ∃ q : ℚ × ℚ, tail = [Cmd.goTo q.1 q.2, Cmd.sleep t]) := by
  rcases basic_scan_trace_cases readings sweep step t st0 with ⟨tail, hT, htail⟩
  refine ⟨tail, ?_, htail⟩
  rw [traceDelta, hT, drop_len_append]

theorem basic_scan_trace_start (readings : ℕ → ℚ) (sweep step t : ℚ)
    (st0 : ScanState) :
    ∃ rest, (stateOf (basic_scan readings sweep step t st0)).trace
      = st0.trace ++ Cmd.goTo (st0.posx - sweep / 2) (st0.posy - sweep / 2)
          :: Cmd.sleep t :: Cmd.setJog step :: rest := by
  rcases basic_scan_trace_cases readings sweep step t st0 with ⟨tail, hT, _⟩
  exact ⟨rowsTraceB t (gridEdge sweep step) (gridEdge sweep step) false ++ tail,
    by simpa [List.append_assoc] using hT⟩

theorem take_two_less (A : List Cmd) (a b : Cmd) :
    (A ++ [a, b]).take ((A ++ [a, b]).length - 2) = A := by
  have hl : (A ++ [a, b]).length - 2 = A.length := by simp
  rw [hl, take_len_append]

theorem preMoveTrace_basic_scan (readings : ℕ → ℚ) (sweep step t : ℚ)
    (st0 : ScanState) :
    preMoveTrace (basic_scan readings sweep step t st0)
      = st0.trace ++
          ([Cmd.goTo (st0.posx - sweep / 2) (st0.posy - sweep / 2), Cmd.sleep t,
            Cmd.setJog step] ++
            rowsTraceB t (gridEdge sweep step) (gridEdge sweep step) false) := by
  rw [basic_scan_eq]
  split_ifs with h0 h1
  · subst h0
    simp [preMoveTrace, preScanState_eq, gridEdge_of_step_zero, rowsTraceB]
  · have hg : gridEdge sweep step = 0 := Int.toNat_of_nonpos h1.le
    simp [preMoveTrace, preScanState_eq, hg, rowsTraceB]
  · rcases hm : (rasterState readings sweep step t st0).max_data_loc with _ | p
    · simp [preMoveTrace, rasterState_trace, List.append_assoc]
    · show (sleepC t (go_to_stage_coordinates p.1 p.2
          (rasterState readings sweep step t st0))).trace.take _ = _
      have htr : (sleepC t (go_to_stage_coordinates p.1 p.2
          (rasterState readings sweep step t st0))).trace
          = (rasterState readings sweep step t st0).trace
              ++ [Cmd.goTo p.1 p.2, Cmd.sleep t] := by
        simp [sleepC, go_to_stage_coordinates, List.append_assoc]
      rw [htr, take_two_less, rasterState_trace, List.append_assoc]

theorem countMeasures_delta (readings : ℕ → ℚ) (sweep step t : ℚ)
    (st0 : ScanState) :
    countMeasures (traceDelta st0 (stateOf (basic_scan readings sweep step t st0)))
      = gridEdge sweep step ^ 2 := by
  rcases basic_scan_traceDelta readings sweep step t st0 with ⟨tail, hT, htail⟩
  have htail0 : countMeasures tail = 0 := by
    rcases htail with h | ⟨q, h⟩ <;> subst h <;> rfl
  rw [hT, countMeasures_append, countMeasures_append, countMeasures_rowsTraceB,
    htail0, pow_two]
  have hpre : countMeasures
      [Cmd.goTo (st0.posx - sweep / 2) (st0.posy - sweep / 2), Cmd.sleep t,
       Cmd.setJog step] = 0 := by
    simp [countMeasures]
  rw [hpre]
  omega

theorem countStepsY_delta (readings : ℕ → ℚ) (sweep step t : ℚ)
    (st0 : ScanState) :
    countSteps Axis.y
        (traceDelta st0 (stateOf (basic_scan readings sweep step t st0)))
      = gridEdge sweep step ^ 2 := by
  rcases basic_scan_traceDelta readings sweep step t st0 with ⟨tail, hT, htail⟩
  have htail0 : countSteps Axis.y tail = 0 := by
    rcases htail with h | ⟨q, h⟩ <;> subst h <;> rfl
  rw [hT, countSteps_append, countSteps_append, countStepsY_rowsTraceB,
    htail0, pow_two]
  have hpre : countSteps Axis.y
      [Cmd.goTo (st0.posx - sweep / 2) (st0.posy - sweep / 2), Cmd.sleep t,
       Cmd.setJog step] = 0 := by
    simp [countSteps]
  rw [hpre]
  omega

theorem countStepsX_delta (readings : ℕ → ℚ) (sweep step t : ℚ)
    (st0 : ScanState) :
    countSteps Axis.x
        (traceDelta st0 (stateOf (basic_scan readings sweep step t st0)))
      = gridEdge sweep step := by
  rcases basic_scan_traceDelta readings sweep step t st0 with ⟨tail, hT, htail⟩
  have htail0 : countSteps Axis.x tail = 0 := by
    rcases htail with h | ⟨q, h⟩ <;> subst h <;> rfl
  rw [hT, countSteps_append, countSteps_append, countStepsX_rowsTraceB, htail0]
  have hpre : countSteps Axis.x
      [Cmd.goTo (st0.posx - sweep / 2) (st0.posy - sweep / 2), Cmd.sleep t,
       Cmd.setJog step] = 0 := by
    simp [countSteps]
  rw [hpre]
  omega

theorem runningMax_mem_of_pos (l : List ℚ) (h : 0 < runningMax l) :
    runningMax l ∈ l := by
  rcases foldl_max_cases l 0 with hc | hc
  · rw [runningMax] at h
    rw [hc] at h
    exact absurd h (lt_irrefl 0)
  · exact hc

theorem le_runningMax (l : List ℚ) (x : ℚ) (h : x ∈ l) : x ≤ runningMax l :=
  mem_le_foldl_max l 0 x h

theorem passState_max_data_runningMax (readings : ℕ → ℚ) (t : ℚ) (cols : ℕ)
    (st0 : ScanState) (h0 : st0.nReads = 0) (hm : st0.max_data = 0) (i j : ℕ) :
    (passState readings t cols st0 i j).max_data
      = runningMax (readsUpTo readings (i * cols + j)) := by
  rw [passState_max_data, h0, hm, runningMax, readsUpTo, List.range_eq_range']

/-- C1: during a single scan pass the Best Reading starts at the zero
sentinel and is updated only when a reading is strictly greater than the
current maximum, so an equal value never overwrites the first occurrence;
on every update the recorded best position is the stage position queried
immediately after the maximizing measurement, never recomputed from the
loop's grid indices; consequently the best value is nondecreasing through
the pass and at every point equals the maximum of all readings taken so far
whenever that maximum is positive.  The pass is described pointwise by
passState (conjunct one ties it to the raster loop scanRows); conjunct two
is the update rule of a single cell; conjuncts three to five give the
running-maximum value, monotonicity, and the it-is-the-maximum property. -/
theorem C1_best_reading_invariant (readings : ℕ → ℚ) (t : ℚ) (cols : ℕ)
    (st0 : ScanState) (h0 : st0.nReads = 0) (hm : st0.max_data = 0) :
    (∀ rows, scanRows readings cols t rows false st0
        = passState readings t cols st0 rows 0) ∧
    (∀ (b : Bool) (st : ScanState),
      (st.max_data < readings st.nReads →
        (scanCell readings b t st).max_data = readings st.nReads ∧
        (scanCell readings b t st).max_data_loc = some (st.posx, st.posy)) ∧
      (¬st.max_data < readings st.nReads →
        (scanCell readings b t st).max_data = st.max_data ∧
        (scanCell readings b t st).max_data_loc = st.max_data_loc)) ∧
    (∀ i j, (passState readings t cols st0 i j).max_data
        = runningMax (readsUpTo readings (i * cols + j))) ∧
    (∀ i j k l, i * cols + j ≤ k * cols + l →
      (passState readings t cols st0 i j).max_data
        ≤ (passState readings t cols st0 k l).max_data) ∧
    (∀ i j, 0 < (passState readings t cols st0 i j).max_data →
      (passState readings t cols st0 i j).max_data
          ∈ readsUpTo readings (i * cols + j) ∧
      ∀ x ∈ readsUpTo readings (i * cols + j),
        x ≤ (passState readings t cols st0 i j).max_data) := by
  refine ⟨fun rows => scanRows_eq_passState readings t cols st0 rows,
    fun b st => ⟨fun hlt => ?_, fun hge => ?_⟩,
    fun i j => passState_max_data_runningMax readings t cols st0 h0 hm i j,
    fun i j k l hle => ?_, fun i j hpos => ?_⟩
  · rw [scanCell_eq]
    exact ⟨max_eq_right hlt.le, if_pos hlt⟩
  · rw [scanCell_eq]
    exact ⟨max_eq_left (not_lt.mp hge), if_neg hge⟩
  · rw [passState_max_data_runningMax readings t cols st0 h0 hm,
      passState_max_data_runningMax readings t cols st0 h0 hm]
    exact runningMax_mono readings hle
  · rw [passState_max_data_runningMax readings t cols st0 h0 hm] at hpos ⊢
    exact ⟨runningMax_mem_of_pos _ hpos, fun x hx => le_runningMax _ x hx⟩

/-- Witness for C1 at a concrete input: with the reading stream n holding
value n and a two-column grid, after one row and one further cell the best
value equals the running maximum of the two readings taken so far. -/
theorem C1_best_reading_invariant_witness :
    (passState (fun n => (n : ℚ)) 0 2 initState 1 1).max_data
      = runningMax (readsUpTo (fun n => (n : ℚ)) (1 * 2 + 1)) :=
  (C1_best_reading_invariant (fun n => (n : ℚ)) 0 2 initState rfl rfl).2.2.1 1 1

/-- C2, counterexample: on a 1x1 grid (sweep_distance = step_size = 1) with
a constant positive detector, the pass does not issue gridEdge^2 - 1
column-axis steps and gridEdge - 1 row-axis steps as claimed (which would be
zero steps): a step command follows every measurement, including the last
one of each row, and a row step follows every row. -/
theorem C2_counterexample :
    gridEdge 1 1 = 1 ∧
    ¬(countSteps Axis.y (traceDelta initState
          (stateOf (basic_scan (fun _ => 1) 1 1 (1 / 2) initState)))
        = gridEdge 1 1 ^ 2 - 1 ∧
      countSteps Axis.x (traceDelta initState
          (stateOf (basic_scan (fun _ => 1) 1 1 (1 / 2) initState)))
        = gridEdge 1 1 - 1) := by
  decide

/-- C2 as amended: a single pass issues exactly gridEdge^2 measurement
reads, gridEdge^2 column-axis (y) step commands and gridEdge row-axis (x)
step commands: one column step after every measurement (including the last
of each row) and one row step after every row (including the last).  In
particular a 1x1 grid issues one read, one column step and one row step. -/
theorem C2_command_counts (readings : ℕ → ℚ) (sweep step t : ℚ)
    (st0 : ScanState) (_hstep : step ≠ 0) (_hnn : 0 ≤ gridEdgeZ sweep step) :
    countMeasures (traceDelta st0
        (stateOf (basic_scan readings sweep step t st0)))
      = gridEdge sweep step ^ 2 ∧
    countSteps Axis.y (traceDelta st0
        (stateOf (basic_scan readings sweep step t st0)))
      = gridEdge sweep step ^ 2 ∧
    countSteps Axis.x (traceDelta st0
        (stateOf (basic_scan readings sweep step t st0)))
      = gridEdge sweep step :=
  ⟨countMeasures_delta readings sweep step t st0,
   countStepsY_delta readings sweep step t st0,
   countStepsX_delta readings sweep step t st0⟩

/-- Witness for the amended C2 on the 1x1 grid. -/
theorem C2_command_counts_witness :
    countMeasures (traceDelta initState
        (stateOf (basic_scan (fun _ => 1) 1 1 (1 / 2) initState)))
      = gridEdge 1 1 ^ 2 ∧
    countSteps Axis.y (traceDelta initState
        (stateOf (basic_scan (fun _ => 1) 1 1 (1 / 2) initState)))
      = gridEdge 1 1 ^ 2 ∧
    countSteps Axis.x (traceDelta initState
        (stateOf (basic_scan (fun _ => 1) 1 1 (1 / 2) initState)))
      = gridEdge 1 1 :=
  C2_command_counts (fun _ => 1) 1 1 (1 / 2) initState (by decide) (by decide)

/-- C3: whenever a single scan pass completes normally, the recorded best
position equals the stage's final position, and the last commands of the
pass are the absolute move to exactly that position followed by the settle
sleep (so the stage is left at the best position, not at the raster's
terminal cell). -/
theorem C3_final_position (readings : ℕ → ℚ) (sweep step t : ℚ)
    (st0 : ScanState)
    (h : isOkB (basic_scan readings sweep step t st0) = true) :
    (stateOf (basic_scan readings sweep step t st0)).max_data_loc
      = some ((stateOf (basic_scan readings sweep step t st0)).posx,
              (stateOf (basic_scan readings sweep step t st0)).posy) ∧
    ∃ pre, (stateOf (basic_scan readings sweep step t st0)).trace
      = pre ++ [Cmd.goTo (stateOf (basic_scan readings sweep step t st0)).posx
                  (stateOf (basic_scan readings sweep step t st0)).posy,
                Cmd.sleep t] :=
  basic_scan_ok_parked readings sweep step t st0 h

/-- Witness for C3 on a 1x1 grid with a positive constant detector. -/
theorem C3_final_position_witness :
    (stateOf (basic_scan (fun _ => 1) 1 1 (1 / 2) initState)).max_data_loc
      = some ((stateOf (basic_scan (fun _ => 1) 1 1 (1 / 2) initState)).posx,
              (stateOf (basic_scan (fun _ => 1) 1 1 (1 / 2) initState)).posy) ∧
    ∃ pre, (stateOf (basic_scan (fun _ => 1) 1 1 (1 / 2) initState)).trace
      = pre ++ [Cmd.goTo
                  (stateOf (basic_scan (fun _ => 1) 1 1 (1 / 2) initState)).posx
                  (stateOf (basic_scan (fun _ => 1) 1 1 (1 / 2) initState)).posy,
                Cmd.sleep (1 / 2)] :=
  C3_final_position (fun _ => 1) 1 1 (1 / 2) initState (by decide)

theorem cellsFrom_none_of_nonpos (readings : ℕ → ℚ) (b : Bool) (t : ℚ)
    (hnp : ∀ k, readings k ≤ 0) :
    ∀ j st, st.max_data = 0 → st.max_data_loc = none →
      (cellsFrom readings b t j st).max_data = 0 ∧
      (cellsFrom readings b t j st).max_data_loc = none := by
  intro j
  induction j with
  | zero => intro st h1 h2; exact ⟨h1, h2⟩
  | succ j ih =>
      intro st h1 h2
      rcases ih st h1 h2 with ⟨ih1, ih2⟩
      rw [cellsFrom, scanCell_eq]
      constructor
      · simp only [ih1]
        exact max_eq_left (hnp _)
      · simp only [ih1, ih2]
        rw [if_neg (not_lt.mpr (hnp _))]

theorem scanRows_none_of_nonpos (readings : ℕ → ℚ) (cols : ℕ) (t : ℚ)
    (hnp : ∀ k, readings k ≤ 0) :
    ∀ r b st, st.max_data = 0 → st.max_data_loc = none →
      (scanRows readings cols t r b st).max_data = 0 ∧
      (scanRows readings cols t r b st).max_data_loc = none := by
  intro r
  induction r with
  | zero => intro b st h1 h2; exact ⟨h1, h2⟩
  | succ r ih =>
      intro b st h1 h2
      rcases cellsFrom_none_of_nonpos readings b t hnp cols st h1 h2 with ⟨hc1, hc2⟩
      rw [scanRows]
      exact ih (!b) _ (by rw [rowEnd_eq]; exact hc1) (by rw [rowEnd_eq]; exact hc2)

/-- C4 records a code bug: when no reading ever exceeds the
strictly-positive threshold over the zero sentinel (all readings
nonpositive), the pass does not complete with the best position defaulting
to the scan origin; max_data_loc is still the integer sentinel 0 and the
final go_to_stage_coordinates call subscripts it, raising TypeError. -/
theorem C4_nonpositive_readings_raise (readings : ℕ → ℚ) (sweep step t : ℚ)
    (st0 : ScanState) (hnp : ∀ k, readings k ≤ 0) (hstep : step ≠ 0)
    (hnn : 0 ≤ gridEdgeZ sweep step) :
    errKind (basic_scan readings sweep step t st0) = some ScanErr.typeError := by
  rw [basic_scan_eq, if_neg hstep, if_neg (not_lt.mpr hnn)]
  have hnone := (scanRows_none_of_nonpos readings (gridEdge sweep step) t hnp
    (gridEdge sweep step) false (preScanState sweep step t st0)
    (by rw [preScanState_eq]) (by rw [preScanState_eq])).2
  rw [← rasterState] at hnone
  rw [hnone]
  rfl

/-- Witness for C4: the all-zeros detector on a 1x1 grid raises TypeError. -/
theorem C4_nonpositive_readings_raise_witness :
    errKind (basic_scan (fun _ => 0) 1 1 (1 / 2) initState)
      = some ScanErr.typeError :=
  C4_nonpositive_readings_raise (fun _ => 0) 1 1 (1 / 2) initState
    (fun _ => le_refl 0) (by decide) (by decide)

/-- C5: the commands of a pass are the origin move, the settle sleep and the
jog configuration, followed by one block per row i in order, where row i
consists of gridEdge repetitions of measure-then-one-column-step in the
single direction serpDir i (forward exactly on even rows, so the direction
strictly alternates starting forward on row 0) followed by the row-axis step
which is always forward; no step commands occur after the raster. -/
theorem C5_serpentine (readings : ℕ → ℚ) (sweep step t : ℚ) (st0 : ScanState) :
    ∃ tail,
      traceDelta st0 (stateOf (basic_scan readings sweep step t st0))
        = [Cmd.goTo (st0.posx - sweep / 2) (st0.posy - sweep / 2), Cmd.sleep t,
           Cmd.setJog step]
          ++ ((List.range (gridEdge sweep step)).map
                (rowTraceI t (gridEdge sweep step))).flatten
          ++ tail ∧
      ∀ c ∈ tail, isStepCmd c = false := by
  rcases basic_scan_traceDelta readings sweep step t st0 with ⟨tail, hT, htail⟩
  refine ⟨tail, ?_, ?_⟩
  · rw [hT]
    have hidx := rowsTraceB_indexed t (gridEdge sweep step) (gridEdge sweep step) 0
    rw [rowBool_zero] at hidx
    rw [hidx, List.range_eq_range']
  · rcases htail with h | ⟨q, h⟩ <;> subst h
    · intro c hc
      cases hc
    · intro c hc
      rcases List.mem_cons.mp hc with hc | hc
      · subst hc; rfl
      · rcases List.mem_cons.mp hc with hc | hc
        · subst hc; rfl
        · cases hc

/-- C6: auto_scan runs exactly three basic_scan passes in sequence with
sweep distances and step sizes (0.025, 0.005), (0.01, 0.001),
(0.001, 0.0005), whose grid edge counts are 5, 10 and 2; each pass after
the first starts from the state the previous pass left behind, whose stage
position is the previous best position (the stage is parked there), and its
first command is the absolute move to a region centered on that position. -/
theorem C6_coarse_to_fine (readings : ℕ → ℚ) (st0 : ScanState)
    (hok : isOkB (auto_scan readings st0) = true) :
    gridEdge (25 / 1000) (5 / 1000) = 5 ∧
    gridEdge (1 / 100) (1 / 1000) = 10 ∧
    gridEdge (1 / 1000) (5 / 10000) = 2 ∧
    ∃ st1 st2 st3,
      basic_scan readings (25 / 1000) (5 / 1000) (1 / 2) st0 = Except.ok st1 ∧
      basic_scan readings (1 / 100) (1 / 1000) (1 / 2)
          (printStep readings st1) = Except.ok st2 ∧
      basic_scan readings (1 / 1000) (5 / 10000) (1 / 2)
          (printStep readings st2) = Except.ok st3 ∧
      auto_scan readings st0 = Except.ok (printStep readings st3) ∧
      st1.max_data_loc = some (st1.posx, st1.posy) ∧
      st2.max_data_loc = some (st2.posx, st2.posy) ∧
      (∃ rest, st2.trace = (printStep readings st1).trace
          ++ Cmd.goTo (st1.posx - (1 / 100) / 2) (st1.posy - (1 / 100) / 2)
            :: Cmd.sleep (1 / 2) :: Cmd.setJog (1 / 1000) :: rest) ∧
      (∃ rest, st3.trace = (printStep readings st2).trace
          ++ Cmd.goTo (st2.posx - (1 / 1000) / 2) (st2.posy - (1 / 1000) / 2)
            :: Cmd.sleep (1 / 2) :: Cmd.setJog (5 / 10000) :: rest) := by
  refine ⟨by decide, by decide, by decide, ?_⟩
  rcases hb1 : basic_scan readings (25 / 1000) (5 / 1000) (1 / 2) st0 with e | st1
  · rw [auto_scan, hb1] at hok
    simp [Except.bind, isOkB] at hok
  · rcases hb2 : basic_scan readings (1 / 100) (1 / 1000) (1 / 2)
        (printStep readings st1) with e | st2
    · rw [auto_scan, hb1] at hok
      simp only [Except.bind] at hok
      rw [hb2] at hok
      simp [isOkB] at hok
    · rcases hb3 : basic_scan readings (1 / 1000) (5 / 10000) (1 / 2)
          (printStep readings st2) with e | st3
      · rw [auto_scan, hb1] at hok
        simp only [Except.bind] at hok
        rw [hb2] at hok
        simp only [Except.bind] at hok
        rw [hb3] at hok
        simp [Except.map, isOkB] at hok
      · refine ⟨st1, st2, st3, rfl, hb2, hb3, ?_, ?_, ?_, ?_, ?_⟩
        · rw [auto_scan, hb1]
          simp only [Except.bind]
          rw [hb2]
          simp only [Except.bind]
          rw [hb3]
          simp only [Except.map]
        · have h := (basic_scan_ok_parked readings (25 / 1000) (5 / 1000)
            (1 / 2) st0 (by rw [hb1]; rfl)).1
          rw [hb1] at h
          exact h
        · have h := (basic_scan_ok_parked readings (1 / 100) (1 / 1000)
            (1 / 2) (printStep readings st1) (by rw [hb2]; rfl)).1
          rw [hb2] at h
          exact h
        · rcases basic_scan_trace_start readings (1 / 100) (1 / 1000) (1 / 2)
            (printStep readings st1) with ⟨rest, hr⟩
          rw [hb2] at hr
          exact ⟨rest, hr⟩
        · rcases basic_scan_trace_start readings (1 / 1000) (5 / 10000) (1 / 2)
            (printStep readings st2) with ⟨rest, hr⟩
          rw [hb3] at hr
          exact ⟨rest, hr⟩

/-- Witness for C6 with a constant positive detector from the origin. -/
theorem C6_coarse_to_fine_witness :
    gridEdge (25 / 1000) (5 / 1000) = 5 ∧
    gridEdge (1 / 100) (1 / 1000) = 10 ∧
    gridEdge (1 / 1000) (5 / 10000) = 2 ∧
    ∃ st1 st2 st3,
      basic_scan (fun _ => 1) (25 / 1000) (5 / 1000) (1 / 2) initState
        = Except.ok st1 ∧
      basic_scan (fun _ => 1) (1 / 100) (1 / 1000) (1 / 2)
          (printStep (fun _ => 1) st1) = Except.ok st2 ∧
      basic_scan (fun _ => 1) (1 / 1000) (5 / 10000) (1 / 2)
          (printStep (fun _ => 1) st2) = Except.ok st3 ∧
      auto_scan (fun _ => 1) initState
        = Except.ok (printStep (fun _ => 1) st3) ∧
      st1.max_data_loc = some (st1.posx, st1.posy) ∧
      st2.max_data_loc = some (st2.posx, st2.posy) ∧
      (∃ rest, st2.trace = (printStep (fun _ => 1) st1).trace
          ++ Cmd.goTo (st1.posx - (1 / 100) / 2) (st1.posy - (1 / 100) / 2)
            :: Cmd.sleep (1 / 2) :: Cmd.setJog (1 / 1000) :: rest) ∧
      (∃ rest, st3.trace = (printStep (fun _ => 1) st2).trace
          ++ Cmd.goTo (st2.posx - (1 / 1000) / 2) (st2.posy - (1 / 1000) / 2)
            :: Cmd.sleep (1 / 2) :: Cmd.setJog (5 / 10000) :: rest) :=
  C6_coarse_to_fine (fun _ => 1) initState
    (auto_scan_ok_of_pos (fun _ => 1) initState (fun _ => one_pos))

/-- C7: every pass first computes the scan origin as the queried stage
position minus half the sweep distance on each axis, then issues, before
anything else and in this order, the absolute move to that origin, the
settle sleep for the caller-controlled sleep_time, and the jog-step
configuration; all measurements lie in the remainder of the trace. -/
theorem C7_scan_origin (readings : ℕ → ℚ) (sweep step t : ℚ)
    (st0 : ScanState) :
    ∃ rest, (stateOf (basic_scan readings sweep step t st0)).trace
      = st0.trace ++ Cmd.goTo (get_motor_position Axis.x st0 - sweep / 2)
            (get_motor_position Axis.y st0 - sweep / 2)
          :: Cmd.sleep t :: Cmd.setJog step :: rest :=
  basic_scan_trace_start readings sweep step t st0

/-- C8, counterexample: a completing pass (1x1 grid, constant positive
detector) still returns None to its caller, not a (best_position,
best_value) pair. -/
theorem C8_counterexample :
    basic_scan_return (fun _ => 1) 1 1 (1 / 2) initState = none ∧
    isOkB (basic_scan (fun _ => 1) 1 1 (1 / 2) initState) = true := by
  decide

/-- C8 as amended: basic_scan always returns None (its body has no return
statement); on normal completion the result is communicated only through
the side effect of parking the stage at the recorded best position. -/
theorem C8_returns_none (readings : ℕ → ℚ) (sweep step t : ℚ)
    (st0 : ScanState)
    (h : isOkB (basic_scan readings sweep step t st0) = true) :
    basic_scan_return readings sweep step t st0 = none ∧
    (stateOf (basic_scan readings sweep step t st0)).max_data_loc
      = some ((stateOf (basic_scan readings sweep step t st0)).posx,
              (stateOf (basic_scan readings sweep step t st0)).posy) := by
  refine ⟨?_, (basic_scan_ok_parked readings sweep step t st0 h).1⟩
  rcases hbs : basic_scan readings sweep step t st0 with e | st <;>
    simp [basic_scan_return, hbs]

/-- Witness for the amended C8 on the 1x1 grid. -/
theorem C8_returns_none_witness :
    basic_scan_return (fun _ => 1) 1 1 (1 / 2) initState = none ∧
    (stateOf (basic_scan (fun _ => 1) 1 1 (1 / 2) initState)).max_data_loc
      = some ((stateOf (basic_scan (fun _ => 1) 1 1 (1 / 2) initState)).posx,
              (stateOf (basic_scan (fun _ => 1) 1 1 (1 / 2) initState)).posy) :=
  C8_returns_none (fun _ => 1) 1 1 (1 / 2) initState (by decide)

/-- C9, counterexample: with sweep_distance 1 and step_size 3/10 (which does
not evenly divide 1) and a positive detector, no exception of any kind is
raised and the scan is performed, issuing measurements; so no
InvalidScanParameters validation exists. -/
theorem C9_counterexample :
    (¬∃ k : ℤ, (1 : ℚ) = (k : ℚ) * (3 / 10)) ∧
    errKind (basic_scan (fun _ => 1) 1 (3 / 10) (1 / 2) initState) = none ∧
    0 < countMeasures (traceDelta initState
        (stateOf (basic_scan (fun _ => 1) 1 (3 / 10) (1 / 2) initState))) := by
  refine ⟨?_, by decide, by decide⟩
  rintro ⟨k, hk⟩
  have h10 : (10 : ℚ) = (k : ℚ) * 3 := by
    field_simp at hk
    linarith
  have hz : (10 : ℤ) = k * 3 := by exact_mod_cast h10
  omega

/-- C9 as amended: basic_scan performs no parameter validation at all; for
any step_size and sweep_distance (dividing evenly or not) it scans a grid
with edge count round(sweep_distance / step_size) and issues that many
squared reads, and the only exception it can produce in that regime is the
TypeError of the no-positive-reading case, never a parameter error. -/
theorem C9_no_parameter_validation (readings : ℕ → ℚ) (sweep step t : ℚ)
    (st0 : ScanState) (hstep : step ≠ 0) (hnn : 0 ≤ gridEdgeZ sweep step) :
    (errKind (basic_scan readings sweep step t st0) = none ∨
     errKind (basic_scan readings sweep step t st0) = some ScanErr.typeError) ∧
    countMeasures (traceDelta st0
        (stateOf (basic_scan readings sweep step t st0)))
      = gridEdge sweep step ^ 2 := by
  refine ⟨?_, countMeasures_delta readings sweep step t st0⟩
  rw [basic_scan_eq, if_neg hstep, if_neg (not_lt.mpr hnn)]
  rcases hm : (rasterState readings sweep step t st0).max_data_loc with _ | p
  · right; rfl
  · left; rfl

/-- Witness for the amended C9 at the non-dividing pair (1, 3/10). -/
theorem C9_no_parameter_validation_witness :
    (errKind (basic_scan (fun _ => 1) 1 (3 / 10) (1 / 2) initState) = none ∨
     errKind (basic_scan (fun _ => 1) 1 (3 / 10) (1 / 2) initState)
       = some ScanErr.typeError) ∧
    countMeasures (traceDelta initState
        (stateOf (basic_scan (fun _ => 1) 1 (3 / 10) (1 / 2) initState)))
      = gridEdge 1 (3 / 10) ^ 2 :=
  C9_no_parameter_validation (fun _ => 1) 1 (3 / 10) (1 / 2) initState
    (by decide) (by decide)

/-- C10: for two runs with the same parameters and start state, the
sequence of commands issued before the final absolute move (the initial
origin move, settle sleep, jog configuration and every relative step with
its axis and direction) is identical whatever the two detector reading
streams return; only the final absolute move can differ. -/
theorem C10_motion_commands_readings_independent (r1 r2 : ℕ → ℚ)
    (sweep step t : ℚ) (st0 : ScanState) :
    preMoveTrace (basic_scan r1 sweep step t st0)
      = preMoveTrace (basic_scan r2 sweep step t st0) := by
  rw [preMoveTrace_basic_scan, preMoveTrace_basic_scan]

end Autogator
